import Mathlib

/- Shallow embedding of the metalink metadata service (Go, Echo + goquery).
   The authority is the source file with the YouTube special case
   (getMetadataHandler taking an optional YouTube API key).  Behavior of the
   Go standard library that the program calls (net/url parsing, reference
   resolution, query parsing, strings helpers) is modelled from the documented
   semantics of Go's net/url and strings packages, restricted to what the
   program uses.  Deliberate simplifications, noted per definition: percent
   escapes are validated but stored un-decoded, host character validation and
   IPv6 bracket stripping are omitted, and ASCII subsets of Unicode
   white-space/ToLower are used.  All definitions are structurally recursive
   so that concrete inputs evaluate by kernel reduction. -/

/-! Character and list helpers (models of Go strings primitives). -/

/-- Models Go byte-level check used by net/url: ASCII control characters. -/
def isCTL (c : Char) : Bool := c.toNat < 32 ∨ c.toNat = 127

/-- True when the string contains an ASCII control character (net/url
rejects such URLs). -/
def containsCTL (s : String) : Bool := s.data.any isCTL

/-- ASCII subset of the white-space set trimmed by Go strings.TrimSpace. -/
def isGoSpace (c : Char) : Bool :=
  c = ' ' ∨ c = '\t' ∨ c = '\n' ∨ c = '\r' ∨ c = Char.ofNat 11 ∨ c = Char.ofNat 12

/-- Drop leading white space from a character list. -/
def dropLeadingSpace : List Char → List Char
  | [] => []
  | c :: rest => if isGoSpace c then dropLeadingSpace rest else c :: rest

/-- Models Go strings.TrimSpace (ASCII white space only). -/
def goTrimSpace (s : String) : String :=
  ⟨(dropLeadingSpace (dropLeadingSpace s.data).reverse).reverse⟩

/-- Lower-case one ASCII letter (model of Unicode ToLower on scheme text). -/
def lowerChar (c : Char) : Char :=
  if 'A' ≤ c ∧ c ≤ 'Z' then Char.ofNat (c.toNat + 32) else c

/-- Lower-case a character list. -/
def lowerStr (l : List Char) : List Char := l.map lowerChar

/-- First-occurrence cut, models strings.Cut: (before, after, found). -/
def cutList (c : Char) : List Char → List Char × List Char × Bool
  | [] => ([], [], false)
  | x :: rest =>
    if x = c then ([], rest, true)
    else
      let r := cutList c rest
      (x :: r.1, r.2.1, r.2.2)

/-- Take characters up to (excluding) the first occurrence of `c`. -/
def takeUntil (c : Char) : List Char → List Char
  | [] => []
  | x :: rest => if x = c then [] else x :: takeUntil c rest

/-- Characters after the last occurrence of `c` (the whole list if absent). -/
def afterLast (c : Char) (l : List Char) : List Char :=
  (takeUntil c l.reverse).reverse

/-- True when `c` occurs in the list. -/
def containsChar (c : Char) (l : List Char) : Bool := l.any (· = c)

/-- Split at the first occurrence of `c`; the second component keeps `c`. -/
def splitAtFirst (c : Char) : List Char → List Char × List Char
  | [] => ([], [])
  | x :: rest =>
    if x = c then ([], x :: rest)
    else
      let r := splitAtFirst c rest
      (x :: r.1, r.2)

/-- True when the list begins with the character `c`. -/
def headIs (c : Char) : List Char → Bool
  | [] => false
  | x :: _ => x = c

/-- True when the first list is a leading run of the second. -/
def listStartsWith : List Char → List Char → Bool
  | [], _ => true
  | _ :: _, [] => false
  | p :: ps, x :: xs => p = x ∧ listStartsWith ps xs

/-- True when `pat` occurs as a contiguous run inside the list. -/
def listHasSub (pat : List Char) : List Char → Bool
  | [] => pat.isEmpty
  | x :: rest => listStartsWith pat (x :: rest) || listHasSub pat rest

/-- Models Go strings.Contains. -/
def goContains (s sub : String) : Bool :=
  if sub = "" then true else listHasSub sub.data s.data

/-- Split on every occurrence of `c`, models strings.Split for one-char
separators ("" yields [[]], like Go's single empty field). -/
def splitChar (c : Char) : List Char → List (List Char)
  | [] => [[]]
  | x :: rest =>
    let r := splitChar c rest
    if x = c then [] :: r
    else
      match r with
      | [] => [[x]]
      | h :: t => (x :: h) :: t

/-- Concatenate a list of strings (model of goquery's Text over a match set). -/
def joinAll : List String → String
  | [] => ""
  | s :: rest => s ++ joinAll rest

/-- Join a list of strings with a separator. -/
def joinWith (sep : String) : List String → String
  | [] => ""
  | [s] => s
  | s :: rest => s ++ sep ++ joinWith sep rest

/-- Hexadecimal digit check used by net/url escape validation. -/
def isHexChar (c : Char) : Bool :=
  ('0' ≤ c ∧ c ≤ '9') ∨ ('a' ≤ c ∧ c ≤ 'f') ∨ ('A' ≤ c ∧ c ≤ 'F')

/-- Value of a hexadecimal digit. -/
def hexVal (c : Char) : Option Nat :=
  if '0' ≤ c ∧ c ≤ '9' then some (c.toNat - '0'.toNat)
  else if 'a' ≤ c ∧ c ≤ 'f' then some (c.toNat - 'a'.toNat + 10)
  else if 'A' ≤ c ∧ c ≤ 'F' then some (c.toNat - 'A'.toNat + 10)
  else none

/-- Every '%' is followed by two hexadecimal digits (net/url setPath fails
otherwise; the decoded form is not materialised in this model). -/
def validEscapes : List Char → Bool
  | [] => true
  | '%' :: a :: b :: rest => isHexChar a ∧ isHexChar b ∧ validEscapes rest
  | '%' :: _ => false
  | _ :: rest => validEscapes rest

/-- Models Go url.QueryUnescape on a character list: '+' becomes a space,
%XX pairs are decoded, malformed escapes are an error. -/
def queryUnescapeList : List Char → Option (List Char)
  | [] => some []
  | '%' :: a :: b :: rest =>
    match hexVal a, hexVal b with
    | some ha, some hb =>
      (queryUnescapeList rest).map (fun r => Char.ofNat (16 * ha + hb) :: r)
    | _, _ => none
  | '%' :: _ => none
  | '+' :: rest => (queryUnescapeList rest).map (fun r => ' ' :: r)
  | ch :: rest => (queryUnescapeList rest).map (fun r => ch :: r)

/-! The Go URL value (net/url URL struct, fields the program touches).
The rootless field models Go's URL.Opaque component. -/

structure GoURL where
  scheme : String := ""
  rootless : String := ""
  host : String := ""
  path : String := ""
  rawQuery : String := ""
  fragment : String := ""
  forceQuery : Bool := false
deriving DecidableEq, Repr

/-- Outcome of net/url getScheme: hard error, no scheme, or a scheme split. -/
inductive SchemeRes where
  | err
  | noScheme
  | found (scheme rest : List Char)
deriving DecidableEq, Repr

/-- Models the scanning loop of net/url getScheme: letters may be followed by
letters, digits, '+', '-', '.' before the ':'; a leading ':' is an error; any
other character means the URL has no scheme. -/
def getSchemeLoop (first : Bool) (acc : List Char) : List Char → SchemeRes
  | [] => SchemeRes.noScheme
  | ch :: rest =>
    if ('a' ≤ ch ∧ ch ≤ 'z') ∨ ('A' ≤ ch ∧ ch ≤ 'Z') then
      getSchemeLoop false (ch :: acc) rest
    else if ('0' ≤ ch ∧ ch ≤ '9') ∨ ch = '+' ∨ ch = '-' ∨ ch = '.' then
      if first then SchemeRes.noScheme else getSchemeLoop false (ch :: acc) rest
    else if ch = ':' then
      if first then SchemeRes.err else SchemeRes.found acc.reverse rest
    else SchemeRes.noScheme

/-- Host part of an authority: the run after the last '@' (userinfo is
dropped; Go's host character validation and IPv6 brackets are not modelled). -/
def hostFromAuthority (l : List Char) : List Char :=
  if containsChar '@' l then afterLast '@' l else l

/-- Core of net/url parse(rawURL, viaRequest).  viaRequest = true models
ParseRequestURI (absolute URL or absolute path, '#' not split off);
viaRequest = false models the body of Parse after the fragment was cut. -/
def goParseCore (viaRequest : Bool) (rawURL : String) : Option GoURL :=
  if containsCTL rawURL then none
  else if rawURL = "" ∧ viaRequest then none
  else if rawURL = "*" ∧ viaRequest then some { path := "*" }
  else
    let schemeSplit : Option (String × List Char) :=
      match getSchemeLoop true [] rawURL.data with
      | SchemeRes.err => none
      | SchemeRes.noScheme => some ("", rawURL.data)
      | SchemeRes.found sch rest => some (⟨lowerStr sch⟩, rest)
    match schemeSplit with
    | none => none
    | some (scheme, rest0) =>
      let endsQ : Bool := headIs '?' rest0.reverse
      let qSplit : List Char × List Char × Bool :=
        if endsQ ∧ ¬ containsChar '?' rest0.dropLast then
          (rest0.dropLast, [], true)
        else
          let r := cutList '?' rest0
          (r.1, r.2.1, false)
      let rest1 := qSplit.1
      let rawQuery : String := ⟨qSplit.2.1⟩
      let forceQuery := qSplit.2.2
      if ¬ headIs '/' rest1 then
        if ¬ scheme = "" then
          some { scheme := scheme
                 rootless := ⟨rest1⟩
                 rawQuery := rawQuery
                 forceQuery := forceQuery }
        else if viaRequest then none
        else if containsChar ':' (takeUntil '/' rest1) then none
        else if validEscapes rest1 then
          some { scheme := scheme
                 path := ⟨rest1⟩
                 rawQuery := rawQuery
                 forceQuery := forceQuery }
        else none
      else
        let hasAuth : Bool :=
          (¬ scheme = "" ∨ (¬ viaRequest ∧ ¬ listStartsWith ['/', '/', '/'] rest1))
            ∧ listStartsWith ['/', '/'] rest1
        if hasAuth then
          let after := rest1.drop 2
          let sp := splitAtFirst '/' after
          let host : String := ⟨hostFromAuthority sp.1⟩
          if validEscapes sp.2 then
            some { scheme := scheme
                   host := host
                   path := ⟨sp.2⟩
                   rawQuery := rawQuery
                   forceQuery := forceQuery }
          else none
        else if validEscapes rest1 then
          some { scheme := scheme
                 path := ⟨rest1⟩
                 rawQuery := rawQuery
                 forceQuery := forceQuery }
        else none

/-- Models Go url.ParseRequestURI. -/
def parseRequestURI (s : String) : Option GoURL := goParseCore true s

/-- Models Go url.Parse: the fragment is cut at the first '#', the remainder
is parsed with viaRequest = false, and the fragment's escapes are checked. -/
def goURLParse (s : String) : Option GoURL :=
  let cut := cutList '#' s.data
  match goParseCore false ⟨cut.1⟩ with
  | none => none
  | some url =>
    if cut.2.2 then
      if validEscapes cut.2.1 then some { url with fragment := ⟨cut.2.1⟩ }
      else none
    else some url

/-- All-decimal-digit check (valid optional port in net/url). -/
def allDigits (l : List Char) : Bool := l.all fun c => '0' ≤ c ∧ c ≤ '9'

/-- Models URL.Hostname(): the host with a valid numeric port suffix removed
(IPv6 bracket stripping is not modelled). -/
def hostnameOf (host : String) : String :=
  if containsChar ':' host.data then
    let afterColon := afterLast ':' host.data
    if allDigits afterColon then
      ⟨host.data.take (host.data.length - (afterColon.length + 1))⟩
    else host
  else host

/-- Pairs of a query string, models url.ParseQuery: split on '&', pairs
containing ';' or empty pairs are skipped, keys and values are unescaped and
pairs with malformed escapes are skipped. -/
def queryPairs (q : List Char) : List (String × String) :=
  (splitChar '&' q).filterMap fun pair =>
    if pair.isEmpty then none
    else if containsChar ';' pair then none
    else
      let kv := cutList '=' pair
      match queryUnescapeList kv.1, queryUnescapeList kv.2.1 with
      | some k2, some v2 => some (⟨k2⟩, ⟨v2⟩)
      | _, _ => none

/-- Models URL.Query().Get(key): the first value of the key, "" if absent. -/
def queryGet (q : String) (key : String) : String :=
  match (queryPairs q.data).lookup key with
  | some v => v
  | none => ""

/-! URL string form and reference resolution (net/url String and
ResolveReference / resolvePath). -/

/-- Base text up to and including the last '/', "" when there is none
(the base[:i+1] step of net/url resolvePath). -/
def takeToLastSlash (s : String) : String :=
  if containsChar '/' s.data then
    let after := afterLast '/' s.data
    ⟨s.data.take (s.data.length - after.length)⟩
  else ""

/-- Dot-segment removal loop of net/url resolvePath: a stack of kept
segments plus whether the final segment was "." or ".." (which re-adds a
trailing slash).  The accumulator is kept reversed. -/
def remDotsAux : List String → List String → List String × Bool
  | [], acc => (acc.reverse, false)
  | [e], acc =>
    if e = "." then (acc.reverse, true)
    else if e = ".." then ((acc.drop 1).reverse, true)
    else ((e :: acc).reverse, false)
  | e :: rest, acc =>
    if e = "." then remDotsAux rest acc
    else if e = ".." then remDotsAux rest (acc.drop 1)
    else remDotsAux rest (e :: acc)

/-- Models net/url resolvePath: merge `ref` onto `base` per RFC 3986 and
remove dot segments; the result always begins with '/'. -/
def resolvePath (base ref : String) : String :=
  let full :=
    if ref = "" then base
    else if ¬ headIs '/' ref.data then takeToLastSlash base ++ ref
    else ref
  if full = "" then ""
  else
    let rawSegs := (splitChar '/' full.data).map fun l => (⟨l⟩ : String)
    let segs :=
      match rawSegs with
      | "" :: rest => rest
      | l => l
    let r := remDotsAux segs []
    if r.1 = [] then "/"
    else "/" ++ joinWith "/" r.1 ++ (if r.2 then "/" else "")

/-- Everything of URL.String() after the "scheme:" part: the Opaque text, or
"//host" plus the path (with Go's '/' and "./" adjustment rules), modelled
without userinfo. -/
def GoURL.mainPart (u : GoURL) : String :=
  if ¬ u.rootless = "" then u.rootless
  else
    let authPart :=
      if ¬ u.scheme = "" ∨ ¬ u.host = "" then
        (if ¬ u.host = "" ∨ ¬ u.path = "" then "//" else "") ++ u.host
      else ""
    let slashFix := if ¬ u.path = "" ∧ ¬ headIs '/' u.path.data ∧ ¬ u.host = "" then "/" else ""
    let dotFix :=
      if u.scheme = "" ∧ u.host = "" ∧ containsChar ':' (takeUntil '/' u.path.data)
      then "./" else ""
    authPart ++ slashFix ++ dotFix ++ u.path

/-- Models URL.String(): scheme, Opaque-or-authority-and-path, raw query and
fragment (escapes are reproduced as stored, since this model keeps the path
un-decoded). -/
def GoURL.toString (u : GoURL) : String :=
  (if ¬ u.scheme = "" then u.scheme ++ ":" else "") ++ u.mainPart
    ++ (if u.forceQuery ∨ ¬ u.rawQuery = "" then "?" ++ u.rawQuery else "")
    ++ (if ¬ u.fragment = "" then "#" ++ u.fragment else "")

/-- Models URL.ResolveReference (userinfo omitted): an absolute or
host-bearing reference replaces the base, an Opaque reference keeps only the
base scheme, an empty path+query reference inherits query/fragment, and a
path reference is merged with resolvePath. -/
def resolveReference (u ref : GoURL) : GoURL :=
  if ¬ ref.scheme = "" then
    { ref with path := resolvePath ref.path "" }
  else if ¬ ref.host = "" then
    { ref with
      scheme := u.scheme
      path := resolvePath ref.path "" }
  else if ¬ ref.rootless = "" then
    { ref with
      scheme := u.scheme
      host := ""
      path := "" }
  else if ref.path = "" ∧ ¬ ref.forceQuery ∧ ref.rawQuery = "" then
    { ref with
      scheme := u.scheme
      host := u.host
      rawQuery := u.rawQuery
      fragment := if ref.fragment = "" then u.fragment else ref.fragment
      path := resolvePath u.path "" }
  else
    { ref with
      scheme := u.scheme
      host := u.host
      path := resolvePath u.path ref.path }

/-! Data model of the service (Metadata and the two provider response
shapes, one Lean field per Go struct/JSON field). -/

/-- Metadata represents the scraped metadata from a webpage. -/
structure Metadata where
  url : String
  page_name : String
  title : String
  description : String
  images : List String
deriving DecidableEq, Repr

/-- oEmbedResponse models JSON from YouTube's oEmbed endpoint. -/
structure OEmbedResponse where
  title : String
  author_name : String
  thumbnail_url : String
  provider : String
deriving DecidableEq, Repr

/-- Snippet part of youtubeAPIResponse; thumbnails is Go's
map[string]struct{URL string}, modelled as an association list whose keyed
lookup of an absent key yields the zero value "". -/
structure Snippet where
  title : String
  description : String
  channelTitle : String
  thumbnails : List (String × String)
deriving DecidableEq, Repr

/-- One element of the items list of youtubeAPIResponse. -/
structure YTItem where
  snippet : Snippet
deriving DecidableEq, Repr

/-- youtubeAPIResponse models JSON from YouTube Data API v3. -/
structure YoutubeAPIResponse where
  items : List YTItem
deriving DecidableEq, Repr

/-- Go map lookup of the thumbnails map: absent key gives the zero struct,
whose URL field is "". -/
def lookupThumb (ts : List (String × String)) (k : String) : String :=
  match ts.lookup k with
  | some v => v
  | none => ""

/-! HTML documents as goquery sees them: the elements the program selects,
in document (traversal) order. -/

/-- One HTML element the extractor can observe: a meta tag with optional
property/name/content attributes, an img tag with an optional src attribute,
or a title element with its text. -/
inductive HtmlNode where
  | meta (prop : Option String) (nameAttr : Option String) (content : Option String)
  | img (src : Option String)
  | titleEl (text : String)
deriving DecidableEq, Repr

/-- A parsed HTML document: its observable elements in document order. -/
structure HtmlDoc where
  nodes : List HtmlNode
deriving DecidableEq, Repr

/-- The two selector shapes the program uses. -/
inductive Selector where
  | metaProp (p : String)
  | metaName (n : String)
deriving DecidableEq, Repr

/-- Whether a node matches the selector; on a match, the value of its
content attribute (goquery Attr: present or absent). -/
def selContent (s : Selector) (n : HtmlNode) : Option (Option String) :=
  match s, n with
  | Selector.metaProp p, HtmlNode.meta prop _ content =>
    if prop = some p then some content else none
  | Selector.metaName nm, HtmlNode.meta _ nameAttr content =>
    if nameAttr = some nm then some content else none
  | _, _ => none

/-- Models doc.Find(selector) restricted to the content attribute of each
matched node, in document order. -/
def findSel (doc : HtmlDoc) (s : Selector) : List (Option String) :=
  doc.nodes.filterMap (selContent s)

/-- getFirstContent finds the first tag by selector and returns its trimmed
content attribute, "" when the selection is empty or the attribute absent. -/
def getFirstContent (doc : HtmlDoc) (s : Selector) : String :=
  match (findSel doc s).head? with
  | some (some c) => goTrimSpace c
  | some none => ""
  | none => ""

/-- Models doc.Find("title").Text(): concatenated text of every title
element, in document order. -/
def titleText (doc : HtmlDoc) : String :=
  joinAll (doc.nodes.filterMap fun n =>
    match n with
    | HtmlNode.titleEl t => some t
    | _ => none)

/-- The og:image Each loop of the handler: the content attribute of every
meta[property='og:image'] node that has one, verbatim, in document order. -/
def ogImagesLoop : List HtmlNode → List String
  | [] => []
  | HtmlNode.meta prop _ content :: rest =>
    if prop = some "og:image" then
      match content with
      | some c => c :: ogImagesLoop rest
      | none => ogImagesLoop rest
    else ogImagesLoop rest
  | _ :: rest => ogImagesLoop rest

/-- The img Each loop of the handler: for every img with a src attribute
whose value url.Parse accepts, the string of the reference resolved against
the page URL; srcs that fail to parse are skipped. -/
def imgLoop (base : GoURL) : List HtmlNode → List String
  | [] => []
  | HtmlNode.img (some src) :: rest =>
    (match goURLParse src with
     | some r => GoURL.toString (resolveReference base r) :: imgLoop base rest
     | none => imgLoop base rest)
  | _ :: rest => imgLoop base rest

/-- The metadata-extraction block of getMetadataHandler, transcribed
line by line from the source (page_name falls back to the parsed URL's
Host, title to trimmed title text, description to meta[name='description'];
og:image contents verbatim, img srcs resolved, img fallback only when no
og:image content was collected). -/
def extractMetadata (rawURL : String) (parsedURL : GoURL) (doc : HtmlDoc) : Metadata :=
  let pn0 := getFirstContent doc (Selector.metaProp "og:site_name")
  let pn := if pn0 = "" then parsedURL.host else pn0
  let t0 := getFirstContent doc (Selector.metaProp "og:title")
  let t := if t0 = "" then goTrimSpace (titleText doc) else t0
  let d0 := getFirstContent doc (Selector.metaProp "og:description")
  let d := if d0 = "" then getFirstContent doc (Selector.metaName "description") else d0
  let ogImgs := ogImagesLoop doc.nodes
  let imgs := if ogImgs = [] then imgLoop parsedURL doc.nodes else ogImgs
  { url := rawURL, page_name := pn, title := t, description := d, images := imgs }

/-! Network model: the three outbound calls the program can make, each an
oracle from request parameters to an outcome (transport/status failure,
body-decode failure, or a decoded value). -/

/-- Outcome of one outbound HTTP call as the program distinguishes them:
transport error or unacceptable status, 200 body that fails to decode/parse,
or a decoded body. -/
inductive FetchOutcome (α : Type) where
  | netError
  | decodeError
  | success (val : α)
deriving DecidableEq, Repr

/-- The network environment: YouTube oEmbed keyed by the requested video
URL, the Data API keyed by video id and API key, and the generic fetch keyed
by the target URL. -/
structure Net where
  oembed : String → FetchOutcome OEmbedResponse
  dataAPI : String → String → FetchOutcome YoutubeAPIResponse
  generic : GoURL → FetchOutcome HtmlDoc

/-- One outbound call, as recorded for observability of the tiering. -/
inductive OutCall where
  | oembedCall (videoURL : String)
  | dataAPICall (videoID : String) (apiKey : String)
  | genericCall (target : GoURL)
deriving DecidableEq, Repr

/-- isYouTubeURL returns true if the host is YouTube or youtu.be. -/
def isYouTubeURL (u : GoURL) : Bool :=
  goContains (hostnameOf u.host) "youtube.com" ∨ goContains (hostnameOf u.host) "youtu.be"

/-- extractYouTubeID pulls the video ID from the URL: the path without its
leading slash for youtu.be hosts, else the v query parameter. -/
def extractYouTubeID (u : GoURL) : String :=
  if goContains u.host "youtu.be" then
    ⟨match u.path.data with
      | '/' :: rest => rest
      | l => l⟩
  else queryGet u.rawQuery "v"

/-- fetchYouTubeOEmbed queries YouTube's oEmbed endpoint: any transport,
status or decode failure is an error (none); on success the response is
mapped with url ← the video URL passed in, page_name ← provider_name,
description ← author_name, images ← the single thumbnail_url.  The second
component records the one outbound call the function always makes. -/
def fetchYouTubeOEmbed (net : Net) (videoURL : String) : Option Metadata × List OutCall :=
  ((match net.oembed videoURL with
    | FetchOutcome.success oe =>
      some { url := videoURL, page_name := oe.provider, title := oe.title,
             description := oe.author_name, images := [oe.thumbnail_url] }
    | _ => none),
   [OutCall.oembedCall videoURL])

/-- fetchYouTubeDataAPI queries the YouTube Data API v3: the request is
issued unconditionally (also for an empty video id); failure, decode failure
or an empty items list is an error (none); on success the first item's
snippet is mapped with url ← the video id, images ← the "high" thumbnail
(absent key gives ""). -/
def fetchYouTubeDataAPI (net : Net) (videoID apiKey : String) :
    Option Metadata × List OutCall :=
  ((match net.dataAPI videoID apiKey with
    | FetchOutcome.success data =>
      match data.items with
      | [] => none
      | item :: _ =>
        some { url := videoID, page_name := item.snippet.channelTitle,
               title := item.snippet.title, description := item.snippet.description,
               images := [lookupThumb item.snippet.thumbnails "high"] }
    | _ => none),
   [OutCall.dataAPICall videoID apiKey])

/-- HTTP-level responses the handler can produce, tagged with their status
class (400 badRequest, 502 badGateway, 500 internalError, 200 ok). -/
inductive HandlerResponse where
  | badRequest (msg : String)
  | badGateway (msg : String)
  | internalError (msg : String)
  | ok (m : Metadata)
deriving DecidableEq, Repr

/-- The generic GET of the handler through Go's http.Client: the client
fails deterministically (before any network traffic) on a scheme other than
http/https or an empty host; otherwise the outcome is the network's. -/
def goHTTPDo (net : Net) (u : GoURL) : FetchOutcome HtmlDoc :=
  if (u.scheme = "http" ∨ u.scheme = "https") ∧ ¬ u.host = "" then net.generic u
  else FetchOutcome.netError

/-- The generic tier of the handler: fetch failure or non-2xx → 502, HTML
parse failure → 500, else 200 with the extracted metadata. -/
def genericResponse (net : Net) (rawURL : String) (parsedURL : GoURL) : HandlerResponse :=
  match goHTTPDo net parsedURL with
  | FetchOutcome.netError => HandlerResponse.badGateway "failed to fetch target"
  | FetchOutcome.decodeError => HandlerResponse.internalError "failed to parse html"
  | FetchOutcome.success doc => HandlerResponse.ok (extractMetadata rawURL parsedURL doc)

/-- getMetadataHandler, transcribed from the source: missing/unparseable url
→ 400 with no outbound call; for YouTube URLs try oEmbed, then (only with a
non-empty API key) the Data API, then fall through; the generic tier runs
last.  The second component is the list of outbound calls in order. -/
def getMetadataHandler (ytAPIKey : String) (net : Net) (rawURL : String) :
    HandlerResponse × List OutCall :=
  if rawURL = "" then (HandlerResponse.badRequest "missing url parameter", [])
  else
    match parseRequestURI rawURL with
    | none => (HandlerResponse.badRequest "invalid url", [])
    | some parsedURL =>
      if isYouTubeURL parsedURL then
        let r1 := fetchYouTubeOEmbed net rawURL
        match r1.1 with
        | some meta => (HandlerResponse.ok meta, r1.2)
        | none =>
          if ¬ ytAPIKey = "" then
            let r2 := fetchYouTubeDataAPI net (extractYouTubeID parsedURL) ytAPIKey
            match r2.1 with
            | some meta => (HandlerResponse.ok meta, r1.2 ++ r2.2)
            | none =>
              (genericResponse net rawURL parsedURL,
               r1.2 ++ r2.2 ++ [OutCall.genericCall parsedURL])
          else
            (genericResponse net rawURL parsedURL,
             r1.2 ++ [OutCall.genericCall parsedURL])
      else (genericResponse net rawURL parsedURL, [OutCall.genericCall parsedURL])

/-! Claim-side (specification) definitions, stated independently of the
extractor's loops so the theorems relate two formulations. -/

/-- Content values of all meta[property='og:image'] tags that carry a
content attribute, verbatim, in document order. -/
def ogImageContents (doc : HtmlDoc) : List String :=
  (findSel doc (Selector.metaProp "og:image")).filterMap id

/-- The src attributes of all img elements that have one, in document
order. -/
def imgSrcs (doc : HtmlDoc) : List String :=
  doc.nodes.filterMap fun n =>
    match n with
    | HtmlNode.img (some src) => some src
    | _ => none

/-- The img srcs that url.Parse accepts, resolved against the base URL and
rendered as strings, in document order. -/
def resolvedImgs (base : GoURL) (doc : HtmlDoc) : List String :=
  (imgSrcs doc).filterMap fun src =>
    match goURLParse src with
    | some r => some (GoURL.toString (resolveReference base r))
    | none => none

/-- Trimmed content of the first og:title tag when one is present (an
absent content attribute reads as ""), the reading of the claim about title
precedence. -/
def specC6Title (doc : HtmlDoc) : Option String :=
  (findSel doc (Selector.metaProp "og:title")).head?.map fun c => goTrimSpace (c.getD "")

/-- True when the trace contains a generic-fetch call. -/
def tracedGeneric (tr : List OutCall) : Bool :=
  tr.any fun c =>
    match c with
    | OutCall.genericCall _ => true
    | _ => false

/-- True when the trace contains a Data API call. -/
def tracedDataAPI (tr : List OutCall) : Bool :=
  tr.any fun c =>
    match c with
    | OutCall.dataAPICall _ _ => true
    | _ => false

/-- A string is an absolute URL when it is the printed form of a URL value
that carries a scheme. -/
def IsAbsoluteURL (s : String) : Prop :=
  ∃ u : GoURL, ¬ u.scheme = "" ∧ s = GoURL.toString u

/-! Concrete fixtures used by the closed theorems below. -/

/-- A network on which every outbound call fails at transport level. -/
def netFail : Net :=
  { oembed := fun _ => FetchOutcome.netError
    dataAPI := fun _ _ => FetchOutcome.netError
    generic := fun _ => FetchOutcome.netError }

/-- Data API answering 200 with an empty items list. -/
def netEmptyItems : Net :=
  { netFail with dataAPI := fun _ _ => FetchOutcome.success ⟨[]⟩ }

/-- oEmbed answering with an empty provider_name field. -/
def netNoProvider : Net :=
  { netFail with oembed := fun _ => FetchOutcome.success ⟨"t", "a", "th", ""⟩ }

/-- oEmbed answering with a full response. -/
def netOembedOk : Net :=
  { netFail with oembed := fun _ => FetchOutcome.success ⟨"T", "A", "th", "YouTube"⟩ }

/-- A page whose only og:image content is the relative reference /a.png. -/
def docRelImage : HtmlDoc := ⟨[HtmlNode.meta (some "og:image") none (some "/a.png")]⟩

/-- Generic fetch answering with docRelImage. -/
def netRelImage : Net :=
  { netFail with generic := fun _ => FetchOutcome.success docRelImage }

/-- A page with a white-space-only og:title and a real title element. -/
def docBlankOgTitle : HtmlDoc :=
  ⟨[HtmlNode.meta (some "og:title") none (some " "), HtmlNode.titleEl "Real"]⟩

/-- A page with an unparseable img src and a relative img src. -/
def docBadSrc : HtmlDoc := ⟨[HtmlNode.img (some ":x"), HtmlNode.img (some "/a.png")]⟩

/-- A page with one relative img src only. -/
def docOneImg : HtmlDoc := ⟨[HtmlNode.img (some "/a.png")]⟩

/-- A page with an empty-content og:image tag and an img element. -/
def docEmptyOgImage : HtmlDoc :=
  ⟨[HtmlNode.meta (some "og:image") none (some ""), HtmlNode.img (some "x.png")]⟩

/-- A page with one og:title tag. -/
def docPlainOgTitle : HtmlDoc :=
  ⟨[HtmlNode.meta (some "og:title") none (some "X"), HtmlNode.titleEl "Other"]⟩

/-- An empty page. -/
def docEmpty : HtmlDoc := ⟨[]⟩

/-- Generic fetch answering with the empty page. -/
def netEmptyPage : Net :=
  { netFail with generic := fun _ => FetchOutcome.success docEmpty }

/-- Data API answering with one item whose thumbnails lack the "high" key. -/
def netOneItem : Net :=
  { netFail with
    dataAPI := fun _ _ =>
      FetchOutcome.success ⟨[⟨⟨"T", "D", "C", [("default", "u1")]⟩⟩]⟩ }

/-- Generic fetch answering with docOneImg. -/
def netOneImg : Net :=
  { netFail with generic := fun _ => FetchOutcome.success docOneImg }

/-- The parsed form of https://x.test/p. -/
def baseXTest : GoURL := { scheme := "https", host := "x.test", path := "/p" }

/-- The parsed form of https://youtu.be/v. -/
def baseYT : GoURL := { scheme := "https", host := "youtu.be", path := "/v" }

/-! Helper lemmas shared by the claim theorems. -/

/-- Appending strings appends their character lists. -/
theorem strData_append (a b : String) : (a ++ b).data = a.data ++ b.data := by
  cases a
  cases b
  rfl

/-- The printed form of a URL with a scheme contains a colon. -/
theorem colon_mem_toString (u : GoURL) (h : ¬ u.scheme = "") :
    ':' ∈ (GoURL.toString u).data := by
  unfold GoURL.toString
  rw [if_pos h]
  simp only [strData_append]
  simp [String.data]

/-- A string with no colon is not the printed form of any URL that has a
scheme, hence not an absolute URL in the sense of this development. -/
theorem not_absolute_of_no_colon (s : String) (h : ':' ∉ s.data) :
    ¬ IsAbsoluteURL s := by
  rintro ⟨u, hu, rfl⟩
  exact h (colon_mem_toString u hu)

/-- Resolving any reference against a base with a scheme yields a URL with a
scheme. -/
theorem resolveReference_scheme (u ref : GoURL) (h : ¬ u.scheme = "") :
    ¬ (resolveReference u ref).scheme = "" := by
  unfold resolveReference
  split
  · assumption
  · split
    · exact h
    · split
      · exact h
      · split
        · exact h
        · exact h

/-- The handler's og:image loop computes the claim-side list of og:image
content values. -/
theorem ogLoop_eq (nodes : List HtmlNode) :
    ogImagesLoop nodes = ogImageContents ⟨nodes⟩ := by
  induction nodes with
  | nil => rfl
  | cons n rest ih =>
    have ih' : ogImagesLoop rest =
        List.filterMap id (List.filterMap (selContent (Selector.metaProp "og:image")) rest) := ih
    cases n with
    | meta prop nameAttr content =>
      by_cases hp : prop = some "og:image"
      · cases content <;>
          simp [ogImagesLoop, ogImageContents, findSel, selContent, hp, ih']
      · simp [ogImagesLoop, ogImageContents, findSel, selContent, hp, ih']
    | img src =>
      simp [ogImagesLoop, ogImageContents, findSel, selContent, ih']
    | titleEl t =>
      simp [ogImagesLoop, ogImageContents, findSel, selContent, ih']

/-- The handler's img loop computes the claim-side resolved src list. -/
theorem imgLoop_eq (base : GoURL) (nodes : List HtmlNode) :
    imgLoop base nodes = resolvedImgs base ⟨nodes⟩ := by
  induction nodes with
  | nil => rfl
  | cons n rest ih =>
    have ih' : imgLoop base rest =
        (List.filterMap (fun n =>
          match n with
          | HtmlNode.img (some src) => some src
          | _ => none) rest).filterMap (fun src =>
            match goURLParse src with
            | some r => some (GoURL.toString (resolveReference base r))
            | none => none) := ih
    cases n with
    | meta prop nameAttr content =>
      simp [imgLoop, resolvedImgs, imgSrcs, ih']
    | img src =>
      cases src with
      | none => simp [imgLoop, resolvedImgs, imgSrcs, ih']
      | some s =>
        cases hp : goURLParse s with
        | none => simp [imgLoop, resolvedImgs, imgSrcs, hp, ih']
        | some r => simp [imgLoop, resolvedImgs, imgSrcs, hp, ih']
    | titleEl t =>
      simp [imgLoop, resolvedImgs, imgSrcs, ih']


/-- A 200 out of the generic tier forces an http/https scheme, a non-empty
host, a successfully fetched document, and the extractor's record. -/
theorem genericResponse_ok (net : Net) (rawURL : String) (p : GoURL) (m : Metadata)
    (h : genericResponse net rawURL p = HandlerResponse.ok m) :
    (p.scheme = "http" ∨ p.scheme = "https") ∧ ¬ p.host = "" ∧
      ∃ doc, net.generic p = FetchOutcome.success doc ∧ m = extractMetadata rawURL p doc := by
  simp only [genericResponse, goHTTPDo] at h
  split at h
  · simp at h
  · simp at h
  · rename_i doc heq
    simp only [HandlerResponse.ok.injEq] at h
    split at heq
    · rename_i hcond
      exact ⟨hcond.1, hcond.2, doc, heq, h.symm⟩
    · simp at heq

/-- Any 200 whose trace shows a generic call came from the generic tier:
the raw URL is non-empty and parses, the fetch succeeded on an http/https
URL with a host, and the record is the extractor's. -/
theorem handler_ok_generic (key : String) (net : Net) (rawURL : String)
    (m : Metadata) (tr : List OutCall)
    (h : getMetadataHandler key net rawURL = (HandlerResponse.ok m, tr))
    (hg : tracedGeneric tr = true) :
    ∃ p doc, parseRequestURI rawURL = some p ∧ ¬ rawURL = "" ∧
      (p.scheme = "http" ∨ p.scheme = "https") ∧ ¬ p.host = "" ∧
      net.generic p = FetchOutcome.success doc ∧
      m = extractMetadata rawURL p doc := by
  rw [getMetadataHandler] at h
  split at h
  · simp at h
  · rename_i h0
    split at h
    · simp at h
    · rename_i p hp
      simp only [fetchYouTubeOEmbed, fetchYouTubeDataAPI] at h
      split at h
      · split at h
        · injection h with h1 h2
          subst h2
          simp [tracedGeneric] at hg
        · split at h
          · split at h
            · injection h with h1 h2
              subst h2
              simp [tracedGeneric] at hg
            · injection h with h1 h2
              obtain ⟨hsh, hho, doc, hdoc, hm⟩ := genericResponse_ok net rawURL p m h1
              exact ⟨p, doc, hp, h0, hsh, hho, hdoc, hm⟩
          · injection h with h1 h2
            obtain ⟨hsh, hho, doc, hdoc, hm⟩ := genericResponse_ok net rawURL p m h1
            exact ⟨p, doc, hp, h0, hsh, hho, hdoc, hm⟩
      · injection h with h1 h2
        obtain ⟨hsh, hho, doc, hdoc, hm⟩ := genericResponse_ok net rawURL p m h1
        exact ⟨p, doc, hp, h0, hsh, hho, hdoc, hm⟩

/-- C2 (amended): whenever resolution succeeds through the generic HTML
tier, the returned record's url and page_name are both non-empty (page_name
defaults to the host, which a successful generic fetch guarantees
non-empty); records from the provider tiers copy page_name verbatim from
the provider response and so may be empty there. -/
theorem C2_generic_url_page_name_nonempty (key : String) (net : Net) (rawURL : String)
    (m : Metadata) (tr : List OutCall)
    (h : getMetadataHandler key net rawURL = (HandlerResponse.ok m, tr))
    (hg : tracedGeneric tr = true) :
    ¬ m.url = "" ∧ ¬ m.page_name = "" := by
  obtain ⟨p, doc, hp, h0, hsh, hho, hdoc, hm⟩ := handler_ok_generic key net rawURL m tr h hg
  subst hm
  refine ⟨by simpa [extractMetadata] using h0, ?_⟩
  simp only [extractMetadata]
  split
  · exact hho
  · assumption

/-- C2 counterexample: a request that resolves successfully (200) through
the oEmbed tier but whose page_name is empty, because the handler copies the
response's provider_name field verbatim; the claimed invariant fails. -/
theorem C2_counterexample :
    (getMetadataHandler "" netNoProvider "https://youtu.be/x").1 =
      HandlerResponse.ok { url := "https://youtu.be/x", page_name := "", title := "t",
                           description := "a", images := ["th"] }
    ∧ ({ url := "https://youtu.be/x", page_name := "", title := "t",
         description := "a", images := ["th"] } : Metadata).page_name = "" :=
  ⟨by decide, rfl⟩

/-- C2 witness: a concrete generic resolution of https://e.x/p with the
theorem applied to it. -/
theorem C2_witness :
    ¬ ({ url := "https://e.x/p", page_name := "e.x", title := "", description := "",
         images := [] } : Metadata).url = ""
    ∧ ¬ ({ url := "https://e.x/p", page_name := "e.x", title := "", description := "",
           images := [] } : Metadata).page_name = "" :=
  C2_generic_url_page_name_nonempty "" netEmptyPage "https://e.x/p"
    { url := "https://e.x/p", page_name := "e.x", title := "", description := "", images := [] }
    [OutCall.genericCall { scheme := "https", host := "e.x", path := "/p" }]
    (by decide) (by decide)


/-- C1 (amended): a Data API call with an empty provider ID still issues
the one network request (with an empty id query parameter); when the API
answers 200 with an empty items list the call then fails with a
not-found-style error, rather than failing fast before any network call. -/
theorem C1_empty_id_still_calls_network (net : Net) (apiKey : String)
    (data : YoutubeAPIResponse)
    (hnet : net.dataAPI "" apiKey = FetchOutcome.success data)
    (hempty : data.items = []) :
    fetchYouTubeDataAPI net "" apiKey = (none, [OutCall.dataAPICall "" apiKey]) := by
  simp [fetchYouTubeDataAPI, hnet, hempty]

/-- C1 counterexample: with an empty provider ID the Data API client's
recorded outbound-call list is non-empty, so a network request is made,
contrary to the claim. -/
theorem C1_counterexample :
    (fetchYouTubeDataAPI netEmptyItems "" "key").2 = [OutCall.dataAPICall "" "key"]
    ∧ ¬ (fetchYouTubeDataAPI netEmptyItems "" "key").2 = ([] : List OutCall) :=
  ⟨rfl, by decide⟩

/-- C1 witness: the amended theorem applied to a network whose Data API
answers 200 with an empty items list. -/
theorem C1_witness :
    fetchYouTubeDataAPI netEmptyItems "" "key" = (none, [OutCall.dataAPICall "" "key"]) :=
  C1_empty_id_still_calls_network netEmptyItems "key" ⟨[]⟩ rfl rfl

/-- C9: every successful oEmbed response is mapped with page_name ← the
provider name field, title ← title, description ← the author-name field,
images ← the single thumbnail URL, and url ← the original page URL. -/
theorem C9_oembed_mapping (net : Net) (videoURL : String) (oe : OEmbedResponse)
    (hnet : net.oembed videoURL = FetchOutcome.success oe) :
    (fetchYouTubeOEmbed net videoURL).1 =
      some { url := videoURL, page_name := oe.provider, title := oe.title,
             description := oe.author_name, images := [oe.thumbnail_url] } := by
  simp [fetchYouTubeOEmbed, hnet]

/-- C9 witness: the mapping theorem applied to a concrete response. -/
theorem C9_witness :
    (fetchYouTubeOEmbed netOembedOk "https://youtu.be/v").1 =
      some { url := "https://youtu.be/v", page_name := "YouTube", title := "T",
             description := "A", images := ["th"] } :=
  C9_oembed_mapping netOembedOk "https://youtu.be/v" ⟨"T", "A", "th", "YouTube"⟩ rfl

/-- C8: every successful Data API response with a non-empty items list is
mapped with page_name ← channel title, title ← snippet title, description ←
snippet description, images ← the single "high" thumbnail URL (absent key
gives "" rather than failing), and url ← the provider video ID. -/
theorem C8_data_api_mapping (net : Net) (videoID apiKey : String)
    (data : YoutubeAPIResponse) (item : YTItem) (rest : List YTItem)
    (hnet : net.dataAPI videoID apiKey = FetchOutcome.success data)
    (hitems : data.items = item :: rest) :
    (fetchYouTubeDataAPI net videoID apiKey).1 =
      some { url := videoID, page_name := item.snippet.channelTitle,
             title := item.snippet.title, description := item.snippet.description,
             images := [lookupThumb item.snippet.thumbnails "high"] }
    ∧ (item.snippet.thumbnails.lookup "high" = none →
        lookupThumb item.snippet.thumbnails "high" = "") := by
  constructor
  · simp [fetchYouTubeDataAPI, hnet, hitems]
  · intro hk
    simp [lookupThumb, hk]

/-- C8 witness: the mapping theorem applied to a response whose thumbnails
lack the "high" key, yielding the single empty-string image. -/
theorem C8_witness :
    (fetchYouTubeDataAPI netOneItem "vid" "k").1 =
      some { url := "vid", page_name := "C", title := "T", description := "D",
             images := [""] } :=
  (C8_data_api_mapping netOneItem "vid" "k" ⟨[⟨⟨"T", "D", "C", [("default", "u1")]⟩⟩]⟩
    ⟨⟨"T", "D", "C", [("default", "u1")]⟩⟩ [] rfl rfl).1

/-- C10: when at least one og:image tag carries a content attribute, the
images sequence is exactly the content values of those tags, verbatim and in
document order (empty strings included), and the img-src fallback is
suppressed. -/
theorem C10_og_image_verbatim (doc : HtmlDoc) (rawURL : String) (p : GoURL)
    (h : ¬ ogImageContents doc = []) :
    (extractMetadata rawURL p doc).images = ogImageContents doc := by
  simp only [extractMetadata]
  have he : ogImagesLoop doc.nodes = ogImageContents doc := ogLoop_eq doc.nodes
  rw [he, if_neg h]

/-- C10 witness: a page whose only og:image content is "" yields images
= [""] and the img element is ignored. -/
theorem C10_witness :
    (extractMetadata "https://e.x/" baseXTest docEmptyOgImage).images = [""]
    ∧ ogImageContents docEmptyOgImage = [""] :=
  ⟨(C10_og_image_verbatim docEmptyOgImage "https://e.x/" baseXTest (by decide)).trans rfl, rfl⟩

/-- C7 (amended): with no og:image content present, images equals the src
attributes of the img elements whose src parses as a URL reference, each
resolved against the base URL, in document order; srcs that url.Parse
rejects are skipped rather than included. -/
theorem C7_img_fallback (doc : HtmlDoc) (rawURL : String) (p : GoURL)
    (h : ogImageContents doc = []) :
    (extractMetadata rawURL p doc).images = resolvedImgs p doc := by
  simp only [extractMetadata]
  have he : ogImagesLoop doc.nodes = ogImageContents doc := ogLoop_eq doc.nodes
  rw [he, if_pos h]
  exact imgLoop_eq p doc.nodes

/-- C7 counterexample: a page with img srcs ":x" and "/a.png" (no
og:image) produces one image, not one entry per src attribute: the
unparseable src ":x" is skipped. -/
theorem C7_counterexample :
    ogImageContents docBadSrc = []
    ∧ imgSrcs docBadSrc = [":x", "/a.png"]
    ∧ (extractMetadata "https://x.test/p" baseXTest docBadSrc).images = ["https://x.test/a.png"]
    ∧ goURLParse ":x" = none
    ∧ ¬ (extractMetadata "https://x.test/p" baseXTest docBadSrc).images.length
        = (imgSrcs docBadSrc).length :=
  ⟨rfl, rfl, by decide, rfl, by decide⟩

/-- C7 witness: the amended theorem on a page with img src "/a.png" over
base https://x.test/p, resolving to https://x.test/a.png as the spec's
example requires. -/
theorem C7_witness :
    (extractMetadata "https://x.test/p" baseXTest docOneImg).images = resolvedImgs baseXTest docOneImg
    ∧ resolvedImgs baseXTest docOneImg = ["https://x.test/a.png"] :=
  ⟨C7_img_fallback docOneImg "https://x.test/p" baseXTest (by decide), by decide⟩

/-- C6 (amended): the extracted title equals the trimmed content of the
first og:title tag when that trimmed content is non-empty; when the tag is
absent, lacks a content attribute, or trims to the empty string, the title
falls back to the trimmed text of the title elements. -/
theorem C6_title_rule (doc : HtmlDoc) (rawURL : String) (p : GoURL) :
    (∀ c, specC6Title doc = some c → ¬ c = "" →
      (extractMetadata rawURL p doc).title = c)
    ∧ ((specC6Title doc).getD "" = "" →
      (extractMetadata rawURL p doc).title = goTrimSpace (titleText doc)) := by
  have hgf : getFirstContent doc (Selector.metaProp "og:title") =
      (specC6Title doc).getD "" := by
    simp only [getFirstContent, specC6Title]
    cases h : (findSel doc (Selector.metaProp "og:title")).head? with
    | none => rfl
    | some copt =>
      cases copt with
      | none =>
        simp only [Option.getD_none, Option.map_some, Option.getD_some]
        rfl
      | some c => simp
  constructor
  · intro c hc hne
    have h0 : getFirstContent doc (Selector.metaProp "og:title") = c := by
      rw [hgf, hc]
      rfl
    simp only [extractMetadata]
    rw [h0, if_neg hne]
  · intro hc
    have h0 : getFirstContent doc (Selector.metaProp "og:title") = "" := by
      rw [hgf, hc]
    simp only [extractMetadata]
    rw [h0]
    simp

/-- C6 counterexample: a page with an og:title tag whose content is a
single space and a title element "Real": the og:title tag is present with
trimmed content "", yet the extracted title is "Real", not that trimmed
content. -/
theorem C6_counterexample :
    specC6Title docBlankOgTitle = some ""
    ∧ (extractMetadata "https://e.x/" baseXTest docBlankOgTitle).title = "Real"
    ∧ ¬ ("Real" : String) = "" :=
  ⟨rfl, by decide, by decide⟩

/-- C6 witness: the amended theorem applied to a page whose og:title
content is "X". -/
theorem C6_witness :
    (extractMetadata "https://e.x/" baseXTest docPlainOgTitle).title = "X" :=
  (C6_title_rule docPlainOgTitle "https://e.x/" baseXTest).1 "X" rfl (by decide)

/-- C3 (amended): for a successful generic-tier resolution the images
sequence preserves discovery order (it equals the og:image contents, or the
resolved img srcs when there are none), and in the img-src fallback case
every element is an absolute URL; og:image contents and provider thumbnails
are copied verbatim and need not be absolute. -/
theorem C3_images_order_and_fallback_absolute (key : String) (net : Net)
    (rawURL : String) (m : Metadata) (tr : List OutCall) (p : GoURL) (doc : HtmlDoc)
    (h : getMetadataHandler key net rawURL = (HandlerResponse.ok m, tr))
    (hg : tracedGeneric tr = true)
    (hp : parseRequestURI rawURL = some p)
    (hdoc : net.generic p = FetchOutcome.success doc) :
    m.images = (if ogImageContents doc = [] then resolvedImgs p doc else ogImageContents doc)
    ∧ (ogImageContents doc = [] → ∀ s ∈ m.images, IsAbsoluteURL s) := by
  obtain ⟨p2, doc2, hp2, h0, hsh, hho, hdoc2, hm⟩ := handler_ok_generic key net rawURL m tr h hg
  rw [hp] at hp2
  injection hp2 with hpe
  subst hpe
  rw [hdoc] at hdoc2
  injection hdoc2 with hde
  subst hde
  subst hm
  have he : ogImagesLoop doc.nodes = ogImageContents doc := ogLoop_eq doc.nodes
  constructor
  · simp only [extractMetadata]
    rw [he]
    by_cases hempty : ogImageContents doc = []
    · rw [if_pos hempty, if_pos hempty]
      exact imgLoop_eq p doc.nodes
    · rw [if_neg hempty, if_neg hempty]
  · intro hempty s hs
    simp only [extractMetadata] at hs
    rw [he, if_pos hempty, imgLoop_eq p doc.nodes] at hs
    simp only [resolvedImgs, List.mem_filterMap] at hs
    obtain ⟨src, hsrc, hf⟩ := hs
    cases hparse : goURLParse src with
    | none =>
      rw [hparse] at hf
      simp at hf
    | some r =>
      rw [hparse] at hf
      simp only [Option.some.injEq] at hf
      subst hf
      have hschemeNe : ¬ p.scheme = "" := by
        rcases hsh with h1 | h1 <;> simp [h1]
      exact ⟨resolveReference p r, resolveReference_scheme p r hschemeNe, rfl⟩

/-- C3 counterexample: a successful resolution whose images sequence
contains "/a.png", which is not an absolute URL — og:image content is
copied verbatim. -/
theorem C3_counterexample :
    (getMetadataHandler "" netRelImage "https://x.test/p").1 =
      HandlerResponse.ok { url := "https://x.test/p", page_name := "x.test", title := "",
                           description := "", images := ["/a.png"] }
    ∧ ¬ IsAbsoluteURL "/a.png" :=
  ⟨by decide, not_absolute_of_no_colon "/a.png" (by decide)⟩

/-- C3 witness: the amended theorem applied to a concrete generic
resolution with one relative img src. -/
theorem C3_witness :
    (({ url := "https://x.test/p", page_name := "x.test", title := "", description := "",
        images := ["https://x.test/a.png"] } : Metadata).images =
      (if ogImageContents docOneImg = [] then resolvedImgs baseXTest docOneImg
       else ogImageContents docOneImg))
    ∧ (ogImageContents docOneImg = [] →
       ∀ s ∈ ({ url := "https://x.test/p", page_name := "x.test", title := "",
                description := "", images := ["https://x.test/a.png"] } : Metadata).images,
         IsAbsoluteURL s) :=
  C3_images_order_and_fallback_absolute "" netOneImg "https://x.test/p"
    { url := "https://x.test/p", page_name := "x.test", title := "", description := "",
      images := ["https://x.test/a.png"] }
    [OutCall.genericCall baseXTest] baseXTest docOneImg (by decide) (by decide) (by decide) rfl

/-- C5 (amended): every request whose url parameter Go's request-URI
parser rejects (empty, malformed, or neither an absolute URL nor an
absolute path) fails with 400 and an empty outbound-call list. -/
theorem C5_parser_rejected_urls_fail_fast (key : String) (net : Net) (rawURL : String)
    (h : parseRequestURI rawURL = none) :
    getMetadataHandler key net rawURL =
      (HandlerResponse.badRequest
        (if rawURL = "" then "missing url parameter" else "invalid url"), []) := by
  rw [getMetadataHandler]
  by_cases h0 : rawURL = ""
  · rw [if_pos h0, if_pos h0]
  · rw [if_neg h0, if_neg h0, h]

/-- C5 counterexample: "/foo" is not an absolute URL, yet the handler
does not answer 400: the request-URI parser accepts absolute paths, the
handler proceeds to the fetch step, answers 502 and records an attempted
outbound call. -/
theorem C5_counterexample :
    ¬ IsAbsoluteURL "/foo"
    ∧ (getMetadataHandler "" netFail "/foo").1 = HandlerResponse.badGateway "failed to fetch target"
    ∧ ¬ (getMetadataHandler "" netFail "/foo").2 = ([] : List OutCall) :=
  ⟨not_absolute_of_no_colon "/foo" (by decide), by decide, by decide⟩

/-- C5 witness: the amended theorem applied to the rejected input
"foo". -/
theorem C5_witness :
    getMetadataHandler "" netFail "foo" = (HandlerResponse.badRequest "invalid url", []) :=
  C5_parser_rejected_urls_fail_fast "" netFail "foo" (by decide)

/-- The oEmbed client's trace is always its single outbound call. -/
theorem oembed_snd (net : Net) (v : String) :
    (fetchYouTubeOEmbed net v).2 = [OutCall.oembedCall v] := rfl

/-- The Data API client's trace is always its single outbound call. -/
theorem dataAPI_snd (net : Net) (id key : String) :
    (fetchYouTubeDataAPI net id key).2 = [OutCall.dataAPICall id key] := rfl

/-- A successful oEmbed response determines the client's result record. -/
theorem oembed_fst_success (net : Net) (v : String) (oe : OEmbedResponse)
    (h : net.oembed v = FetchOutcome.success oe) :
    (fetchYouTubeOEmbed net v).1 =
      some { url := v, page_name := oe.provider, title := oe.title,
             description := oe.author_name, images := [oe.thumbnail_url] } := by
  simp [fetchYouTubeOEmbed, h]

/-- C4: for a YouTube URL, a successful oEmbed call returns its record
immediately with exactly one outbound call; when oEmbed fails the Data API
is invoked if and only if the provider API key is non-empty; and when the
provider tiers fail or are unavailable the handler falls through to the
generic tier (whose own outcome stands) rather than erroring. -/
theorem C4_provider_tiering (key : String) (net : Net) (rawURL : String) (p : GoURL)
    (h0 : ¬ rawURL = "")
    (hp : parseRequestURI rawURL = some p)
    (hyt : isYouTubeURL p = true) :
    (∀ oe, net.oembed rawURL = FetchOutcome.success oe →
      getMetadataHandler key net rawURL =
        (HandlerResponse.ok { url := rawURL, page_name := oe.provider, title := oe.title,
                              description := oe.author_name, images := [oe.thumbnail_url] },
         [OutCall.oembedCall rawURL]))
    ∧ ((fetchYouTubeOEmbed net rawURL).1 = none →
        (tracedDataAPI (getMetadataHandler key net rawURL).2 = true ↔ ¬ key = ""))
    ∧ ((fetchYouTubeOEmbed net rawURL).1 = none →
        (key = "" ∨ (fetchYouTubeDataAPI net (extractYouTubeID p) key).1 = none) →
        (getMetadataHandler key net rawURL).1 = genericResponse net rawURL p
        ∧ tracedGeneric (getMetadataHandler key net rawURL).2 = true) := by
  refine ⟨?_, ?_, ?_⟩
  · intro oe hoe
    have h1 := oembed_fst_success net rawURL oe hoe
    simp [getMetadataHandler, h0, hp, hyt, h1, oembed_snd]
  · intro hnone
    by_cases hk : key = ""
    · subst hk
      simp [getMetadataHandler, h0, hp, hyt, hnone, oembed_snd, tracedDataAPI]
    · cases hr2 : (fetchYouTubeDataAPI net (extractYouTubeID p) key).1 with
      | some meta =>
        simp [getMetadataHandler, h0, hp, hyt, hnone, hk, hr2, oembed_snd, dataAPI_snd,
          tracedDataAPI]
      | none =>
        simp [getMetadataHandler, h0, hp, hyt, hnone, hk, hr2, oembed_snd, dataAPI_snd,
          tracedDataAPI]
  · intro hnone hfail
    by_cases hk : key = ""
    · subst hk
      simp [getMetadataHandler, h0, hp, hyt, hnone, oembed_snd, tracedGeneric]
    · rcases hfail with hf | hf
      · exact absurd hf hk
      · simp [getMetadataHandler, h0, hp, hyt, hnone, hk, hf, oembed_snd, dataAPI_snd,
          tracedGeneric]

/-- C4 witness: the first conjunct applied to a concrete successful oEmbed
resolution of https://youtu.be/v. -/
theorem C4_witness :
    getMetadataHandler "" netOembedOk "https://youtu.be/v" =
      (HandlerResponse.ok { url := "https://youtu.be/v", page_name := "YouTube", title := "T",
                            description := "A", images := ["th"] },
       [OutCall.oembedCall "https://youtu.be/v"]) :=
  (C4_provider_tiering "" netOembedOk "https://youtu.be/v" baseYT (by decide) (by decide)
    (by decide)).1 ⟨"T", "A", "th", "YouTube"⟩ rfl
